import Mathlib

/-!
Verification of the download-queue orchestrator of the music-downloader
repository: QueueService (src/unnamed/part_002, lines 19-671) together with
the parts of YoutubeService (src/backend/src/services/youtube.service.js) and
HistoryService (src/backend/src/services/history.service.js) it drives.

The embedding is a shallow one.  Each JavaScript method becomes a Lean
function on an explicit state `QState` holding the in-memory registry
(`queue`, a JS `Map` modelled as an insertion-ordered list), the
`activeDownloads` ledger (an `Int`, because the code can drive it negative),
the `youtubeService.activeProcesses` map (`procs`), and a `trace` that records
every event emission of the QueueService event bus together with every
completed `historyService.updateStatus` write (so that ordering claims about
persistence versus emission can be stated).

Asynchrony: `EventEmitter.emit` is synchronous in Node, and an async listener
runs synchronously up to its first `await`.  The model fixes the one schedule
that matters: in `cancelOp`, the `cancelled` listener runs its synchronous
prefix (setting the status) during `youtubeService.cancel`, then the rest of
`cancel()` runs (it contains no `await`), and the listener's continuation
(the completed `updateStatus` write, the `statusChange` emission, the second
decrement and its `processNext`) runs afterwards.  Both completions of the
two unawaited `processNext` calls are placed at their call sites; per-job
orderings and all counts are independent of that choice.

Abstractions: the asynchronous metadata prefetch in `startDownload` (title /
thumbnail refinement) is omitted; `historyService` reads used by `add` are
modelled by a `List HRecord` snapshot passed in (newest record first, so
`List.find?` models `ORDER BY created_at DESC LIMIT 1`); the durable record
read by `retry` via `historyService.getById` is passed as an argument; the
percentage regex of the stdout handler is modelled by handing the handler the
parse result of each chunk (`Option ℚ`).
-/

namespace MusicDL

/-- Job status strings stored in queue items.  `converting` is the transient
sub-status carried by a progress event at 100% (youtube.service.js line 319)
and written into the item by the `progress` listener (part_002 line 39). -/
inductive Status
  | pending
  | downloading
  | paused
  | completed
  | error
  | cancelled
  | converting
  deriving DecidableEq, Repr

/-- One entry of `QueueService.queue` (part_002 lines 147-160).  `createdAt`
is the submission timestamp (`new Date().toISOString()` modelled as a Nat). -/
structure Item where
  id : Nat
  url : String
  title : String
  status : Status
  progress : Nat
  createdAt : Nat
  deriving DecidableEq, Repr

/-- Trace entries: the QueueService event-bus emissions (`added`,
`statusChange`, `progress`, `complete`, `error`, `removed`) plus the completed
persistence writes `historyService.updateStatus` (`dbStatus`) and
`historyService.add` (`dbAdd`). -/
inductive Ev
  | added (ids : List Nat)
  | statusChange (id : Nat) (st : Status)
  | progress (id : Nat) (p : Nat)
  | complete (id : Nat)
  | error (id : Nat)
  | removed (id : Nat)
  | dbStatus (id : Nat) (st : Status)
  | dbAdd (id : Nat)
  deriving DecidableEq, Repr

/-- The orchestrator state: QueueService's fields plus YoutubeService's
`activeProcesses` (pairs of id and the `paused` flag) and the trace. -/
structure QState where
  queue : List Item
  activeDownloads : Int
  procs : List (Nat × Bool)
  trace : List Ev
  deriving DecidableEq, Repr

/-- `this.queue.get(id)`. -/
def qGet (s : QState) (id : Nat) : Option Item :=
  s.queue.find? (fun it => decide (it.id = id))

/-- Mutation of the item object held in the map (`item.status = ...`). -/
def qUpdate (q : List Item) (id : Nat) (f : Item → Item) : List Item :=
  q.map (fun it => if it.id = id then f it else it)

/-- `this.queue.delete(id)`. -/
def qDelete (q : List Item) (id : Nat) : List Item :=
  q.filter (fun it => decide (it.id ≠ id))

/-- `this.queue.set(id, item)`: a JS `Map.set` keeps the original insertion
position when the key is already present, and appends otherwise. -/
def qSet (q : List Item) (item : Item) : List Item :=
  if q.any (fun it => decide (it.id = item.id)) then
    q.map (fun it => if it.id = item.id then item else it)
  else q ++ [item]

/-- `youtubeService.activeProcesses.get(downloadId)`. -/
def procGet (s : QState) (id : Nat) : Option (Nat × Bool) :=
  s.procs.find? (fun pr => decide (pr.1 = id))

/-- `youtubeService.activeProcesses.delete(downloadId)`. -/
def procDelete (ps : List (Nat × Bool)) (id : Nat) : List (Nat × Bool) :=
  ps.filter (fun pr => decide (pr.1 ≠ id))

/-- Setting the `paused` flag of a live process handle. -/
def procSetPaused (ps : List (Nat × Bool)) (id : Nat) (b : Bool) : List (Nat × Bool) :=
  ps.map (fun pr => if pr.1 = id then (pr.1, b) else pr)

/-- One event-bus emission or completed persistence write, appended to the
trace. -/
def emit (s : QState) (e : Ev) : QState :=
  { s with trace := s.trace ++ [e] }

/-- The `for (const [id, item] of this.queue) if (item.status === 'pending')`
loop of `processNext` (part_002 lines 213-218): first pending item in
insertion order. -/
def firstPending (q : List Item) : Option Item :=
  q.find? (fun it => decide (it.status = Status.pending))

/-- `settings.maxConcurrent || DEFAULT_MAX_CONCURRENT` (part_002 line 206):
JS `||` falls back to 2 when the setting is absent or 0. -/
def effectiveMax (maxConcurrent : Option Nat) : Nat :=
  match maxConcurrent with
  | none => 2
  | some n => if n = 0 then 2 else n

/-- `QueueService.startDownload` (part_002 lines 224-261), composed with the
process-handle registration done by `youtubeService.download` (line 302).
The synchronous prefix increments `activeDownloads` and sets the status; the
`updateStatus` write completes before the `statusChange` emission.  The
asynchronous metadata prefetch (lines 237-252) is omitted. -/
def startDownload (s : QState) (id : Nat) : QState :=
  match qGet s id with
  | none => s
  | some _ =>
    let s1 : QState :=
      { s with
        activeDownloads := s.activeDownloads + 1,
        queue := qUpdate s.queue id
          (fun it => { it with status := Status.downloading, progress := 0 }) }
    let s2 := emit s1 (Ev.dbStatus id Status.downloading)
    let s3 := emit s2 (Ev.statusChange id Status.downloading)
    { s3 with procs := s3.procs ++ [(id, false)] }

/-- `QueueService.processNext` (part_002 lines 203-219).  The concurrency
limit is read fresh from the settings provider on every call; the model makes
this explicit by taking it as the `limit` argument of each invocation. -/
def processNext (limit : Nat) (s : QState) : QState :=
  if (limit : Int) ≤ s.activeDownloads then s
  else
    match firstPending s.queue with
    | some it => startDownload s it.id
    | none => s

/-- `QueueService.handleComplete` (part_002 lines 266-312).  File-size and
speed statistics are best-effort and omitted.  Note that the decrement and
`processNext` sit outside the `if (item)` guard. -/
def handleComplete (limit : Nat) (s : QState) (id : Nat) : QState :=
  let s1 :=
    match qGet s id with
    | some _ =>
      let q1 := qUpdate s.queue id (fun it => { it with status := Status.completed, progress := 100 })
      let sA : QState := { s with queue := q1 }
      let sB := emit sA (Ev.dbStatus id Status.completed)
      emit sB (Ev.complete id)
    | none => s
  processNext limit { s1 with activeDownloads := s1.activeDownloads - 1 }

/-- `QueueService.handleError` (part_002 lines 317-329).  As in the source,
the decrement and `processNext` run even when the item is no longer in the
registry. -/
def handleError (limit : Nat) (s : QState) (id : Nat) : QState :=
  let s1 :=
    match qGet s id with
    | some _ =>
      let q1 := qUpdate s.queue id (fun it => { it with status := Status.error })
      let sA : QState := { s with queue := q1 }
      let sB := emit sA (Ev.dbStatus id Status.error)
      emit sB (Ev.error id)
    | none => s
  processNext limit { s1 with activeDownloads := s1.activeDownloads - 1 }

/-- The `close` handler of `youtubeService.download` with exit code 0
(youtube.service.js lines 344-365): the handle is released, `complete` is
emitted and handled by `QueueService.handleComplete`. -/
def ytCloseSuccess (limit : Nat) (s : QState) (id : Nat) : QState :=
  handleComplete limit { s with procs := procDelete s.procs id } id

/-- The `close` handler with a non-zero exit code (youtube.service.js lines
366-370): the `error` emission triggers `QueueService.handleError`, and the
rejection of the download promise is caught in `startDownload` and triggers
`handleError` a second time. -/
def ytCloseFailure (limit : Nat) (s : QState) (id : Nat) : QState :=
  let s1 := handleError limit { s with procs := procDelete s.procs id } id
  handleError limit s1 id

/-- The stderr handler (youtube.service.js lines 337-342): any chunk not
containing `WARNING` is emitted as an `error` and handled by
`QueueService.handleError`; the process itself keeps running and stays
registered. -/
def ytStderr (limit : Nat) (s : QState) (id : Nat) (isWarning : Bool) : QState :=
  if isWarning then s else handleError limit s id

/-- A progress emission that passed the `lastProgress` guard of the stdout
handler (youtube.service.js lines 311-321; the guard itself is modelled by
`emittedProgress` below), followed by the QueueService `progress` listener
(part_002 lines 35-43): if the item is still in the registry, its progress
and status are overwritten and the event is re-emitted.  The emission only
happens while the worker process is live, hence the `procGet` guard.  The
`updateProgress` persistence write is fire-and-forget and not traced. -/
def ytProgress (s : QState) (id : Nat) (p : Nat) : QState :=
  match procGet s id with
  | none => s
  | some _ =>
    match qGet s id with
    | none => s
    | some _ =>
      let stt := if p < 100 then Status.downloading else Status.converting
      let q1 := qUpdate s.queue id (fun it => { it with progress := p, status := stt })
      emit { s with queue := q1 } (Ev.progress id p)

/-- `QueueService.pause` (part_002 lines 334-352) composed with
`youtubeService.pause` (youtube.service.js lines 384-393) and the `paused`
listener (part_002 lines 53-59).  Note the listener emits a first
`statusChange` before the persistence write; `pause()` then performs the
write and emits a second one.  Throws are modelled by `Except.error` with the
untouched state. -/
def pauseOp (s : QState) (id : Nat) : QState × Except String Bool :=
  match qGet s id with
  | none => (s, Except.error "Item não encontrado")
  | some it =>
    if it.status ≠ Status.downloading then
      (s, Except.error "Apenas downloads em andamento podem ser pausados")
    else
      match procGet s id with
      | some pr =>
        if pr.2 then (s, Except.ok false)
        else
          let s1 : QState := { s with procs := procSetPaused s.procs id true }
          let q2 := qUpdate s1.queue id (fun j => { j with status := Status.paused })
          let s2 : QState := { s1 with queue := q2 }
          let s3 := emit s2 (Ev.statusChange id Status.paused)
          let q4 := qUpdate s3.queue id (fun j => { j with status := Status.paused })
          let s4 : QState := { s3 with queue := q4 }
          let s5 := emit s4 (Ev.dbStatus id Status.paused)
          let s6 := emit s5 (Ev.statusChange id Status.paused)
          (s6, Except.ok true)
      | none => (s, Except.ok false)

/-- `QueueService.resume` (part_002 lines 357-375) composed with
`youtubeService.resume` (lines 398-407) and the `resumed` listener (part_002
lines 61-67); mirror image of `pauseOp`. -/
def resumeOp (s : QState) (id : Nat) : QState × Except String Bool :=
  match qGet s id with
  | none => (s, Except.error "Item não encontrado")
  | some it =>
    if it.status ≠ Status.paused then
      (s, Except.error "Apenas downloads pausados podem ser continuados")
    else
      match procGet s id with
      | some pr =>
        if pr.2 then
          let s1 : QState := { s with procs := procSetPaused s.procs id false }
          let q2 := qUpdate s1.queue id (fun j => { j with status := Status.downloading })
          let s2 : QState := { s1 with queue := q2 }
          let s3 := emit s2 (Ev.statusChange id Status.downloading)
          let q4 := qUpdate s3.queue id (fun j => { j with status := Status.downloading })
          let s4 : QState := { s3 with queue := q4 }
          let s5 := emit s4 (Ev.dbStatus id Status.downloading)
          let s6 := emit s5 (Ev.statusChange id Status.downloading)
          (s6, Except.ok true)
        else (s, Except.ok false)
      | none => (s, Except.ok false)

/-- `QueueService.cancel` (part_002 lines 380-402) composed with
`youtubeService.cancel` (youtube.service.js lines 412-425) and the
`cancelled` listener (part_002 lines 69-78).  With a live handle the order
is: handle released and `cancelled` emitted; the listener synchronously sets
the status to `cancelled` and suspends at its `updateStatus` await; `cancel()`
performs its own decrement, deletes the item, emits `removed` and calls
`processNext`; the listener then resumes with the completed write, the
`statusChange` emission, a second decrement, and another `processNext`. -/
def cancelOp (limit : Nat) (s : QState) (id : Nat) : QState × Except String Bool :=
  match qGet s id with
  | none => (s, Except.error "Item não encontrado")
  | some it =>
    if it.status = Status.downloading ∨ it.status = Status.paused then
      match procGet s id with
      | some _ =>
        let s1 : QState := { s with procs := procDelete s.procs id }
        let q2 := qUpdate s1.queue id (fun j => { j with status := Status.cancelled })
        let s2 : QState := { s1 with queue := q2 }
        let s3 : QState := { s2 with activeDownloads := s2.activeDownloads - 1 }
        let s4 : QState := { s3 with queue := qDelete s3.queue id }
        let s5 := emit s4 (Ev.removed id)
        let s6 := processNext limit s5
        let s7 := emit s6 (Ev.dbStatus id Status.cancelled)
        let s8 := emit s7 (Ev.statusChange id Status.cancelled)
        let s9 : QState := { s8 with activeDownloads := s8.activeDownloads - 1 }
        (processNext limit s9, Except.ok true)
      | none =>
        let s1 : QState := { s with activeDownloads := s.activeDownloads - 1 }
        let s2 : QState := { s1 with queue := qDelete s1.queue id }
        let s3 := emit s2 (Ev.removed id)
        (processNext limit s3, Except.ok true)
    else
      let s1 := if it.status = Status.pending then emit s (Ev.dbStatus id Status.cancelled) else s
      let s2 : QState := { s1 with queue := qDelete s1.queue id }
      let s3 := emit s2 (Ev.removed id)
      (processNext limit s3, Except.ok true)

/-- `QueueService.remove` (part_002 lines 407-421). -/
def removeOp (s : QState) (id : Nat) : QState × Except String Bool :=
  match qGet s id with
  | none => (s, Except.error "Item não encontrado")
  | some it =>
    if it.status = Status.downloading ∨ it.status = Status.paused then
      (s, Except.error "Cancele o download antes de remover")
    else
      (emit { s with queue := qDelete s.queue id } (Ev.removed id), Except.ok true)

/-- A row of the durable `downloads` table as read back by HistoryService.
The lists handed to the model are ordered newest record first, so
`List.find?` models the `ORDER BY created_at DESC LIMIT 1` queries. -/
structure HRecord where
  id : Nat
  url : String
  title : String
  status : Status
  deriving DecidableEq, Repr

/-- `HistoryService.existsInQueue` (history.service.js lines 182-191). -/
def existsInQueueDb (h : List HRecord) (url : String) : Option HRecord :=
  h.find? (fun r =>
    decide (r.url = url) &&
    decide (r.status = Status.pending ∨ r.status = Status.downloading ∨ r.status = Status.paused))

/-- `HistoryService.wasDownloadedSuccessfully` (history.service.js lines
168-177). -/
def wasDownloadedSuccessfully (h : List HRecord) (url : String) : Option HRecord :=
  h.find? (fun r => decide (r.url = url) && decide (r.status = Status.completed))

/-- `QueueService.existsInMemoryQueue` (part_002 lines 191-198): first item
in insertion order with the same url and a non-terminal status. -/
def existsInMemoryQueue (s : QState) (url : String) : Option Item :=
  s.queue.find? (fun it =>
    decide (it.url = url) &&
    decide (it.status = Status.pending ∨ it.status = Status.downloading ∨ it.status = Status.paused))

/-- Skip reasons of `add` (part_002 lines 109 and 135). -/
inductive SkipReason
  | in_queue
  | already_downloaded
  deriving DecidableEq, Repr

/-- One entry of `skippedItems` (title and message fields omitted). -/
structure SkipItem where
  url : String
  reason : SkipReason
  existingId : Nat
  deriving DecidableEq, Repr

/-- The per-video information resolved by `youtubeService.getInfo`. -/
structure VideoInfo where
  url : String
  title : String
  deriving DecidableEq, Repr

/-- Return value of `add` together with the updated state and durable store. -/
structure AddResult where
  state : QState
  history : List HRecord
  items : List Item
  skippedItems : List SkipItem
  deriving DecidableEq, Repr

/-- The item literal built by `add` (part_002 lines 147-160). -/
def createItem (newId ts : Nat) (v : VideoInfo) : Item :=
  { id := newId, url := v.url, title := v.title, status := Status.pending,
    progress := 0, createdAt := ts }

/-- The creation branch of `add` for one video (part_002 lines 144-180):
enqueue, persist (`historyService.add`), emit `added`, then `processNext`. -/
def addCreate (limit : Nat) (newId ts : Nat) (v : VideoInfo)
    (s : QState) (h : List HRecord) : AddResult :=
  let item := createItem newId ts v
  let s1 : QState := { s with queue := qSet s.queue item }
  let h1 : List HRecord :=
    { id := newId, url := v.url, title := v.title, status := Status.pending } :: h
  let s2 := emit s1 (Ev.dbAdd newId)
  let s3 := emit s2 (Ev.added [newId])
  { state := processNext limit s3, history := h1, items := [item], skippedItems := [] }

/-- `QueueService.add` (part_002 lines 88-186) specialised to a single
resolved video: the three duplicate checks in source order (in-memory queue,
durable non-terminal record, durable completed record), then creation. -/
def addSingle (limit : Nat) (force : Bool) (newId ts : Nat) (v : VideoInfo)
    (s : QState) (h : List HRecord) : AddResult :=
  if force then addCreate limit newId ts v s h
  else
    match existsInMemoryQueue s v.url with
    | some prior =>
      { state := s, history := h, items := [],
        skippedItems := [{ url := v.url, reason := SkipReason.in_queue, existingId := prior.id }] }
    | none =>
      match existsInQueueDb h v.url with
      | some r =>
        { state := s, history := h, items := [],
          skippedItems := [{ url := v.url, reason := SkipReason.in_queue, existingId := r.id }] }
      | none =>
        match wasDownloadedSuccessfully h v.url with
        | some r =>
          { state := s, history := h, items := [],
            skippedItems := [{ url := v.url, reason := SkipReason.already_downloaded, existingId := r.id }] }
        | none => addCreate limit newId ts v s h

/-- `QueueService.retry` (part_002 lines 467-497).  The durable record that
`historyService.getById` returned is passed in as `rec`.  Note the re-enqueue
uses `Map.set`, i.e. `qSet`: an id still present in the registry keeps its
original insertion position. -/
def retryOp (limit : Nat) (rec : HRecord) (ts : Nat) (s : QState) : QState × Except String Bool :=
  if rec.status ≠ Status.error ∧ rec.status ≠ Status.cancelled then
    (s, Except.error "Apenas downloads com erro ou cancelados podem ser re-tentados")
  else
    let s1 := emit s (Ev.dbStatus rec.id Status.pending)
    let item : Item :=
      { id := rec.id, url := rec.url, title := rec.title, status := Status.pending,
        progress := 0, createdAt := ts }
    let s2 : QState := { s1 with queue := qSet s1.queue item }
    let s3 := emit s2 (Ev.added [rec.id])
    (processNext limit s3, Except.ok true)

/-- The result object of `addBatch` (part_002 lines 641-648). -/
structure BatchResult where
  success : Nat
  failed : Nat
  skipped : Nat
  items : List Item
  skippedItems : List SkipItem
  errors : List (String × String)
  deriving DecidableEq, Repr

/-- Outcome of one `await this.add(url, ...)` call inside `addBatch`. -/
structure AddOutcome where
  items : List Item
  skippedItems : List SkipItem
  deriving DecidableEq, Repr

/-- The loop body of `addBatch` (part_002 lines 650-664). -/
def batchStep (addFn : String → Except String AddOutcome)
    (acc : BatchResult) (url : String) : BatchResult :=
  match addFn url with
  | Except.ok r =>
    { acc with
      success := acc.success + r.items.length,
      skipped := acc.skipped + r.skippedItems.length,
      items := acc.items ++ r.items,
      skippedItems := acc.skippedItems ++ r.skippedItems }
  | Except.error msg =>
    { acc with failed := acc.failed + 1, errors := acc.errors ++ [(url, msg)] }

/-- `QueueService.addBatch` (part_002 lines 640-667), parameterised by the
outcome of each `add` call (`Except.error` models a thrown add). -/
def addBatch (addFn : String → Except String AddOutcome) (urls : List String) : BatchResult :=
  urls.foldl (batchStep addFn)
    { success := 0, failed := 0, skipped := 0, items := [], skippedItems := [], errors := [] }

/-- The progress emissions produced by the stdout handler of
`youtubeService.download` (youtube.service.js lines 307-322) over a stream of
chunks, each given as the result of the percentage regex (`none` when no
percentage was matched).  `lastProgress` starts at 0 (line 304); a parsed
value is emitted only when it is strictly greater than `lastProgress`. -/
def emittedProgress (lastProgress : ℚ) : List (Option ℚ) → List ℚ
  | [] => []
  | none :: rest => emittedProgress lastProgress rest
  | some p :: rest =>
    if lastProgress < p then p :: emittedProgress p rest
    else emittedProgress lastProgress rest

/-- Count of registry items in a given status (`getStats`, part_002 lines
440-450). -/
def countStatus (s : QState) (st : Status) : Nat :=
  (s.queue.filter (fun it => decide (it.status = st))).length

/-- Position of the first occurrence of an entry in a trace. -/
def idxOf (e : Ev) : List Ev → Nat
  | [] => 0
  | x :: rest => if x = e then 0 else idxOf e rest + 1

/-- An event is a `progress` or `statusChange` emission for the given id
(the two event kinds claim C6 is about). -/
def tracedFor (id : Nat) (e : Ev) : Bool :=
  match e with
  | Ev.progress j _ => decide (j = id)
  | Ev.statusChange j _ => decide (j = id)
  | _ => false

/-- No item of the registry carries the given id. -/
def idAbsent (q : List Item) (id : Nat) : Prop :=
  ∀ it ∈ q, it.id ≠ id

/-- Convenience wrapper used by the concrete scenarios: `addSingle` for a
video whose title equals its url, threading state and durable store. -/
def demoAdd (limit : Nat) (newId ts : Nat) (url : String)
    (sh : QState × List HRecord) : QState × List HRecord :=
  let r := addSingle limit false newId ts { url := url, title := url } sh.1 sh.2
  (r.state, r.history)

/-- The empty initial state (`constructor`, part_002 lines 29-32). -/
def initState : QState := { queue := [], activeDownloads := 0, procs := [], trace := [] }

/-- Scenario behind claim C1, run at the default concurrency limit 2: four
distinct URLs submitted through `add` one call each (the first two start
downloading), then the first downloading job is cancelled. -/
def c1State : QState :=
  let p1 := demoAdd (effectiveMax none) 0 0 "urlA" (initState, [])
  let p2 := demoAdd (effectiveMax none) 1 1 "urlB" p1
  let p3 := demoAdd (effectiveMax none) 2 2 "urlC" p2
  let p4 := demoAdd (effectiveMax none) 3 3 "urlD" p3
  (cancelOp (effectiveMax none) p4.1 0).1

/-- Scenario behind claim C2: one URL submitted (it starts downloading) and
then paused. -/
def c2Paused : QState :=
  let p1 := demoAdd 2 0 0 "urlA" (initState, [])
  (pauseOp p1.1 0).1

/-- The C2 scenario after cancelling the paused job. -/
def c2State : QState := (cancelOp 2 c2Paused 0).1

/-- Scenario behind claim C6: one URL submitted (it starts downloading), then
the worker prints a non-WARNING stderr diagnostic while it keeps running, so
the job reaches the terminal status `error` with a live process. -/
def c6Errored : QState :=
  let p1 := demoAdd 2 0 0 "urlA" (initState, [])
  ytStderr 2 p1.1 0 false

/-- The C6 scenario after a later stdout chunk of the still-running worker
parses to 50%. -/
def c6After : QState := ytProgress c6Errored 0 50

/-- Scenario behind claim C7, at concurrency limit 1: jobs 0, 1, 2 submitted
at times 0, 1, 2; job 0 fails via a stderr diagnostic (so job 1 is admitted);
job 0 is retried at time 3 (its durable record has status `error`, as written
by `handleError`); then job 1 completes and `processNext` runs. -/
def c7State : QState :=
  let p1 := demoAdd 1 0 0 "urlA" (initState, [])
  let p2 := demoAdd 1 1 1 "urlB" p1
  let p3 := demoAdd 1 2 2 "urlC" p2
  let s3 := ytStderr 1 p3.1 0 false
  let s4 := (retryOp 1 { id := 0, url := "urlA", title := "urlA", status := Status.error } 3 s3).1
  ytCloseSuccess 1 s4 1

/-- Scenario behind claim C8: one URL submitted (it starts downloading), then
paused. -/
def c8State : QState :=
  let p1 := demoAdd 2 0 0 "urlA" (initState, [])
  (pauseOp p1.1 0).1

/-- Scenario behind claim C10: one URL submitted (it starts downloading),
then a stderr diagnostic sets its status to `error` while the worker process
stays alive and registered. -/
def c10Errored : QState :=
  let p1 := demoAdd 2 0 0 "urlA" (initState, [])
  ytStderr 2 p1.1 0 false

end MusicDL

namespace MusicDL

theorem emittedProgress_mem_gt (chunks : List (Option ℚ)) :
    ∀ last q, q ∈ emittedProgress last chunks → last < q := by
  induction chunks with
  | nil => intro last q h; simp [emittedProgress] at h
  | cons c rest ih =>
    intro last q h
    cases c with
    | none =>
      exact ih last q (by simpa [emittedProgress] using h)
    | some p =>
      by_cases hp : last < p
      · rw [emittedProgress, if_pos hp] at h
        rcases List.mem_cons.mp h with rfl | hmem
        · exact hp
        · exact lt_trans hp (ih p q hmem)
      · exact ih last q (by rwa [emittedProgress, if_neg hp] at h)

theorem emittedProgress_pairwise (chunks : List (Option ℚ)) :
    ∀ last, List.Pairwise (· < ·) (emittedProgress last chunks) := by
  induction chunks with
  | nil => intro last; simp [emittedProgress]
  | cons c rest ih =>
    intro last
    cases c with
    | none => simpa [emittedProgress] using ih last
    | some p =>
      by_cases hp : last < p
      · rw [emittedProgress, if_pos hp]
        exact List.Pairwise.cons (fun q hq => emittedProgress_mem_gt rest p q hq) (ih p)
      · rw [emittedProgress, if_neg hp]
        exact ih last

/-- Claim C5: for one download's worker output stream, the sequence of
progress values emitted as `progress` events is strictly increasing — each
value that passes the `lastProgress` guard is strictly greater than every
previously emitted percentage (so a job's `progress` is non-decreasing
between consecutive progress events). -/
theorem c5_progress_strictly_increasing (chunks : List (Option ℚ)) :
    List.Pairwise (· < ·) (emittedProgress 0 chunks) :=
  emittedProgress_pairwise chunks 0

/-- Claim C3: calling `add` without `force` on a URL that already has a
non-terminal job in the in-memory queue, or a non-terminal record in the
durable store, creates no job and returns one skip with reason `in_queue`
carrying the prior job's id; a URL whose durable record is `completed`
yields one skip with reason `already_downloaded` carrying that record's id.
The three checks happen in source order (memory, durable queue, durable
completed). -/
theorem c3_add_deduplication :
    (∀ limit newId ts v s h prior,
      existsInMemoryQueue s v.url = some prior →
      addSingle limit false newId ts v s h =
        { state := s, history := h, items := [],
          skippedItems := [{ url := v.url, reason := SkipReason.in_queue, existingId := prior.id }] }) ∧
    (∀ limit newId ts v s h r,
      existsInMemoryQueue s v.url = none →
      existsInQueueDb h v.url = some r →
      addSingle limit false newId ts v s h =
        { state := s, history := h, items := [],
          skippedItems := [{ url := v.url, reason := SkipReason.in_queue, existingId := r.id }] }) ∧
    (∀ limit newId ts v s h r,
      existsInMemoryQueue s v.url = none →
      existsInQueueDb h v.url = none →
      wasDownloadedSuccessfully h v.url = some r →
      addSingle limit false newId ts v s h =
        { state := s, history := h, items := [],
          skippedItems := [{ url := v.url, reason := SkipReason.already_downloaded, existingId := r.id }] }) := by
  refine ⟨?_, ?_, ?_⟩
  · intro limit newId ts v s h prior hmem
    simp [addSingle, hmem]
  · intro limit newId ts v s h r hmem hdb
    simp [addSingle, hmem, hdb]
  · intro limit newId ts v s h r hmem hdb hdone
    simp [addSingle, hmem, hdb, hdone]

/-- Witness for C3 at concrete inputs: a pending in-memory duplicate, a
durable non-terminal duplicate, and a durable completed duplicate. -/
theorem c3_add_deduplication_witness :
    (addSingle 2 false 9 9 { url := "u", title := "t" }
        { queue := [{ id := 7, url := "u", title := "t0", status := Status.pending,
                      progress := 0, createdAt := 0 }],
          activeDownloads := 0, procs := [], trace := [] } [] =
      { state := { queue := [{ id := 7, url := "u", title := "t0", status := Status.pending,
                               progress := 0, createdAt := 0 }],
                   activeDownloads := 0, procs := [], trace := [] },
        history := [], items := [],
        skippedItems := [{ url := "u", reason := SkipReason.in_queue, existingId := 7 }] }) ∧
    (addSingle 2 false 9 9 { url := "u", title := "t" } initState
        [{ id := 3, url := "u", title := "t0", status := Status.downloading }] =
      { state := initState,
        history := [{ id := 3, url := "u", title := "t0", status := Status.downloading }],
        items := [],
        skippedItems := [{ url := "u", reason := SkipReason.in_queue, existingId := 3 }] }) ∧
    (addSingle 2 false 9 9 { url := "u", title := "t" } initState
        [{ id := 4, url := "u", title := "t0", status := Status.completed }] =
      { state := initState,
        history := [{ id := 4, url := "u", title := "t0", status := Status.completed }],
        items := [],
        skippedItems := [{ url := "u", reason := SkipReason.already_downloaded, existingId := 4 }] }) :=
  ⟨c3_add_deduplication.1 2 9 9 { url := "u", title := "t" }
      { queue := [{ id := 7, url := "u", title := "t0", status := Status.pending,
                    progress := 0, createdAt := 0 }],
        activeDownloads := 0, procs := [], trace := [] } []
      { id := 7, url := "u", title := "t0", status := Status.pending,
        progress := 0, createdAt := 0 } (by decide),
   c3_add_deduplication.2.1 2 9 9 { url := "u", title := "t" } initState
      [{ id := 3, url := "u", title := "t0", status := Status.downloading }]
      { id := 3, url := "u", title := "t0", status := Status.downloading }
      (by decide) (by decide),
   c3_add_deduplication.2.2 2 9 9 { url := "u", title := "t" } initState
      [{ id := 4, url := "u", title := "t0", status := Status.completed }]
      { id := 4, url := "u", title := "t0", status := Status.completed }
      (by decide) (by decide) (by decide)⟩

/-- Claim C4: `pause` on a registry item whose status is not `downloading`
throws synchronously and leaves the whole state — registry, ledger, process
handles and trace (so no persistence write and no emission) — unchanged;
`resume` on an item whose status is not `paused` likewise. -/
theorem c4_control_misuse_rejected :
    (∀ s id it, qGet s id = some it → it.status ≠ Status.downloading →
      pauseOp s id = (s, Except.error "Apenas downloads em andamento podem ser pausados")) ∧
    (∀ s id it, qGet s id = some it → it.status ≠ Status.paused →
      resumeOp s id = (s, Except.error "Apenas downloads pausados podem ser continuados")) := by
  constructor
  · intro s id it hget hst
    simp [pauseOp, hget, hst]
  · intro s id it hget hst
    simp [resumeOp, hget, hst]

/-- Witness for C4: pausing a pending item and resuming a downloading item
both fail with the source's error messages and do not change the state. -/
theorem c4_control_misuse_rejected_witness :
    (pauseOp { queue := [{ id := 0, url := "u", title := "t", status := Status.pending,
                           progress := 0, createdAt := 0 }],
               activeDownloads := 0, procs := [], trace := [] } 0 =
      ({ queue := [{ id := 0, url := "u", title := "t", status := Status.pending,
                     progress := 0, createdAt := 0 }],
         activeDownloads := 0, procs := [], trace := [] },
       Except.error "Apenas downloads em andamento podem ser pausados")) ∧
    (resumeOp { queue := [{ id := 0, url := "u", title := "t", status := Status.downloading,
                            progress := 0, createdAt := 0 }],
                activeDownloads := 1, procs := [(0, false)], trace := [] } 0 =
      ({ queue := [{ id := 0, url := "u", title := "t", status := Status.downloading,
                     progress := 0, createdAt := 0 }],
         activeDownloads := 1, procs := [(0, false)], trace := [] },
       Except.error "Apenas downloads pausados podem ser continuados")) :=
  ⟨c4_control_misuse_rejected.1
      { queue := [{ id := 0, url := "u", title := "t", status := Status.pending,
                    progress := 0, createdAt := 0 }],
        activeDownloads := 0, procs := [], trace := [] } 0
      { id := 0, url := "u", title := "t", status := Status.pending,
        progress := 0, createdAt := 0 } (by decide) (by decide),
   c4_control_misuse_rejected.2
      { queue := [{ id := 0, url := "u", title := "t", status := Status.downloading,
                    progress := 0, createdAt := 0 }],
        activeDownloads := 1, procs := [(0, false)], trace := [] } 0
      { id := 0, url := "u", title := "t", status := Status.downloading,
        progress := 0, createdAt := 0 } (by decide) (by decide)⟩

/-- Claim C1 (code bug): with the default limit `effectiveMax none = 2`,
submitting four URLs and cancelling the first downloading job leaves three
items in status `downloading` — the `cancelled` listener decrements
`activeDownloads` a second time after `cancel()` already did, so the ledger
reads 2 while three downloads run, and the claimed invariant
`countStatus … downloading ≤ maxConcurrent` fails on this reachable state. -/
theorem c1_downloading_exceeds_limit :
    countStatus c1State Status.downloading = 3 ∧
    effectiveMax none = 2 ∧
    c1State.activeDownloads = 2 := by decide

/-- Claim C2 (code bug): cancelling a paused job decrements the
`activeDownloads` ledger twice — once in `cancel()` and once in the
`cancelled` listener — driving it from 1 to -1 for a single job; the status
does go directly to `cancelled` (the only `statusChange` to `downloading`
ever emitted for the job is its original admission). -/
theorem c2_cancel_paused_double_decrement :
    c2Paused.activeDownloads = 1 ∧
    c2State.activeDownloads = -1 ∧
    (c2State.trace.filter (fun e => decide (e = Ev.statusChange 0 Status.downloading))).length = 1 ∧
    (c2State.trace.filter (fun e => decide (e = Ev.statusChange 0 Status.cancelled))).length = 1 := by
  decide

/-- Counterexample to C6: after job 0 reaches the terminal status `error`
(via a stderr diagnostic while its worker keeps running), a later stdout
chunk still causes a `progress` event for id 0 — and even resurrects the
item's status to `downloading`. -/
theorem c6_progress_after_terminal :
    (qGet c6Errored 0).map Item.status = some Status.error ∧
    c6After.trace = c6Errored.trace ++ [Ev.progress 0 50] ∧
    (qGet c6After 0).map Item.status = some Status.downloading := by decide

/-- Counterexample to C7: after retrying job 0 (whose `Map.set` re-enqueue
keeps its original position but stamps a fresh `createdAt` of 3) and the
completion of job 1, `processNext` admits job 0 even though job 2 is pending
with the older submission time 2 — selection is not FIFO by `submittedAt`. -/
theorem c7_retry_breaks_fifo :
    (qGet c7State 0).map Item.status = some Status.downloading ∧
    (qGet c7State 0).map Item.createdAt = some 3 ∧
    (qGet c7State 2).map Item.status = some Status.pending ∧
    (qGet c7State 2).map Item.createdAt = some 2 := by decide

/-- Counterexample to C8: on the pause path the `paused` listener emits a
`statusChange` before the `updateStatus('paused')` write completes — in the
trace of the concrete scenario the first `statusChange … paused` strictly
precedes the `dbStatus … paused` entry. -/
theorem c8_pause_event_before_write :
    idxOf (Ev.statusChange 0 Status.paused) c8State.trace <
    idxOf (Ev.dbStatus 0 Status.paused) c8State.trace := by decide

/-- Counterexample to C10: a job whose status became `error` through a
stderr diagnostic still has its worker process registered, and `remove`
succeeds on it — detaching an item with a live worker process from the
registry without terminating the process. -/
theorem c10_remove_detaches_live_process :
    procGet c10Errored 0 = some (0, false) ∧
    (removeOp c10Errored 0).2 = Except.ok true ∧
    qGet (removeOp c10Errored 0).1 0 = none ∧
    procGet (removeOp c10Errored 0).1 0 = some (0, false) :=
  ⟨by decide, by rfl, by decide, by decide⟩

/-- Amended C10: `remove` throws for an absent id and for items in status
`downloading` or `paused`, leaving the registry, ledger, process handles and
trace unchanged and emitting nothing — hence an item in those statuses is
never detached by `remove` (an item whose status already left
downloading/paused, e.g. `error` set by a stderr diagnostic, can however be
removed while its worker process is still registered). -/
theorem c10_remove_guard :
    (∀ s id, qGet s id = none → removeOp s id = (s, Except.error "Item não encontrado")) ∧
    (∀ s id it, qGet s id = some it →
      it.status = Status.downloading ∨ it.status = Status.paused →
      removeOp s id = (s, Except.error "Cancele o download antes de remover")) := by
  constructor
  · intro s id hget
    simp [removeOp, hget]
  · intro s id it hget hst
    simp [removeOp, hget, hst]

/-- Witness for the amended C10 at concrete inputs: removal of a missing id
and removal of a downloading item both fail without state change. -/
theorem c10_remove_guard_witness :
    (removeOp initState 5 = (initState, Except.error "Item não encontrado")) ∧
    (removeOp { queue := [{ id := 1, url := "u", title := "t", status := Status.downloading,
                            progress := 0, createdAt := 0 }],
                activeDownloads := 1, procs := [(1, false)], trace := [] } 1 =
      ({ queue := [{ id := 1, url := "u", title := "t", status := Status.downloading,
                     progress := 0, createdAt := 0 }],
         activeDownloads := 1, procs := [(1, false)], trace := [] },
       Except.error "Cancele o download antes de remover")) :=
  ⟨c10_remove_guard.1 initState 5 (by decide),
   c10_remove_guard.2
      { queue := [{ id := 1, url := "u", title := "t", status := Status.downloading,
                    progress := 0, createdAt := 0 }],
        activeDownloads := 1, procs := [(1, false)], trace := [] } 1
      { id := 1, url := "u", title := "t", status := Status.downloading,
        progress := 0, createdAt := 0 } (by decide) (by decide)⟩

end MusicDL

namespace MusicDL

theorem addBatch_foldl (f : String → Except String AddOutcome) (urls : List String) :
    ∀ acc : BatchResult, urls.foldl (batchStep f) acc =
      { success := acc.success +
          (urls.map (fun u => match f u with | Except.ok r => r.items.length | Except.error _ => 0)).sum,
        failed := acc.failed +
          (urls.filter (fun u => match f u with | Except.error _ => true | Except.ok _ => false)).length,
        skipped := acc.skipped +
          (urls.map (fun u => match f u with | Except.ok r => r.skippedItems.length | Except.error _ => 0)).sum,
        items := acc.items ++
          (urls.map (fun u => match f u with | Except.ok r => r.items | Except.error _ => [])).flatten,
        skippedItems := acc.skippedItems ++
          (urls.map (fun u => match f u with | Except.ok r => r.skippedItems | Except.error _ => [])).flatten,
        errors := acc.errors ++
          urls.filterMap (fun u => match f u with | Except.error m => some (u, m) | Except.ok _ => none) } := by
  induction urls with
  | nil => intro acc; simp
  | cons u rest ih =>
    intro acc
    rw [List.foldl_cons, ih]
    cases hfu : f u with
    | ok r =>
      simp [batchStep, hfu, List.filter_cons, List.filterMap_cons, Nat.add_assoc]
    | error m =>
      simp [batchStep, hfu, List.filter_cons, List.filterMap_cons, Nat.add_assoc, Nat.add_comm]

/-- Claim C9: `addBatch` processes the URLs sequentially in list order; a
throwing `add` call increments `failed` and appends `(url, error)` to
`errors` while processing continues, and the aggregate's `success`,
`skipped` and `failed` equal the total numbers of created items, skipped
items, and throwing URLs — one failing URL never aborts the batch. -/
theorem c9_batch_isolation (f : String → Except String AddOutcome) (urls : List String) :
    (addBatch f urls).failed =
      (urls.filter (fun u => match f u with | Except.error _ => true | Except.ok _ => false)).length ∧
    (addBatch f urls).errors =
      urls.filterMap (fun u => match f u with | Except.error m => some (u, m) | Except.ok _ => none) ∧
    (addBatch f urls).success =
      (urls.map (fun u => match f u with | Except.ok r => r.items.length | Except.error _ => 0)).sum ∧
    (addBatch f urls).skipped =
      (urls.map (fun u => match f u with | Except.ok r => r.skippedItems.length | Except.error _ => 0)).sum ∧
    (addBatch f urls).items =
      (urls.map (fun u => match f u with | Except.ok r => r.items | Except.error _ => [])).flatten ∧
    (addBatch f urls).skippedItems =
      (urls.map (fun u => match f u with | Except.ok r => r.skippedItems | Except.error _ => [])).flatten := by
  unfold addBatch
  rw [addBatch_foldl]
  simp

theorem qUpdate_ids (q : List Item) (id : Nat) (f : Item → Item)
    (hf : ∀ it, (f it).id = it.id) : (qUpdate q id f).map Item.id = q.map Item.id := by
  unfold qUpdate
  rw [List.map_map]
  apply List.map_congr_left
  intro it _
  by_cases h : it.id = id <;> simp [h, hf]

theorem startDownload_ids (s : QState) (j : Nat) :
    (startDownload s j).queue.map Item.id = s.queue.map Item.id := by
  unfold startDownload
  cases hq : qGet s j with
  | none => rfl
  | some it =>
    simp only [emit]
    exact qUpdate_ids _ _ _ (fun _ => rfl)

theorem processNext_ids (limit : Nat) (s : QState) :
    (processNext limit s).queue.map Item.id = s.queue.map Item.id := by
  unfold processNext
  by_cases h : (limit : Int) ≤ s.activeDownloads
  · rw [if_pos h]
  · rw [if_neg h]
    cases hf : firstPending s.queue with
    | none => rfl
    | some it => exact startDownload_ids s it.id

theorem qSet_ids_present (q : List Item) (item : Item)
    (h : q.any (fun it => decide (it.id = item.id)) = true) :
    (qSet q item).map Item.id = q.map Item.id := by
  unfold qSet
  rw [if_pos h, List.map_map]
  apply List.map_congr_left
  intro it _
  by_cases hx : it.id = item.id <;> simp [hx]

theorem qSet_ids_fresh (q : List Item) (item : Item)
    (h : idAbsent q item.id) :
    (qSet q item).map Item.id = q.map Item.id ++ [item.id] := by
  unfold qSet
  rw [if_neg, List.map_append]
  · rfl
  · intro hc
    obtain ⟨it, hit, hdec⟩ := List.any_eq_true.mp hc
    exact h it hit (of_decide_eq_true hdec)

/-- Amended C7: `processNext` reads the concurrency limit fresh for each
decision (it is an argument of every call, re-read from the settings
provider) and admits the first `pending` item in registry insertion order.
For jobs created by `add` this coincides with oldest-`createdAt`-first,
because creation appends at the end; but `retry` re-enqueues with `Map.set`,
which keeps the original position of an id still present in the registry, so
the admitted pending job need not have the oldest `submittedAt`. -/
theorem c7_first_pending_in_insertion_order :
    (∀ (limit : Nat) (s : QState), (limit : Int) ≤ s.activeDownloads → processNext limit s = s) ∧
    (∀ (limit : Nat) (s : QState) (it : Item), s.activeDownloads < (limit : Int) →
      firstPending s.queue = some it → processNext limit s = startDownload s it.id) ∧
    (∀ limit newId ts v s h, idAbsent s.queue newId →
      (addCreate limit newId ts v s h).state.queue.map Item.id = s.queue.map Item.id ++ [newId]) ∧
    (∀ limit rec ts s, (∃ it ∈ s.queue, it.id = rec.id) →
      (rec.status = Status.error ∨ rec.status = Status.cancelled) →
      (retryOp limit rec ts s).1.queue.map Item.id = s.queue.map Item.id) := by
  refine ⟨?_, ?_, ?_, ?_⟩
  · intro limit s h
    simp [processNext, h]
  · intro limit s it h hf
    unfold processNext
    rw [if_neg (not_le.mpr h), hf]
  · intro limit newId ts v s h habs
    show (processNext limit _).queue.map Item.id = _
    rw [processNext_ids]
    simp only [emit]
    exact qSet_ids_fresh s.queue (createItem newId ts v) habs
  · intro limit rec ts s hpresent hst
    have hguard : ¬(rec.status ≠ Status.error ∧ rec.status ≠ Status.cancelled) := by
      rcases hst with h | h <;> simp [h]
    rw [retryOp, if_neg hguard]
    show (processNext limit _).queue.map Item.id = _
    rw [processNext_ids]
    simp only [emit]
    apply qSet_ids_present
    apply List.any_eq_true.mpr
    obtain ⟨it, hit, hid⟩ := hpresent
    exact ⟨it, hit, decide_eq_true hid⟩

/-- Witness for the amended C7 at concrete inputs: a saturated scheduler is
a no-op, the first pending item is admitted, creation appends, and retry of a
present id preserves the id sequence. -/
theorem c7_first_pending_witness :
    (processNext 1 { queue := [], activeDownloads := 1, procs := [], trace := [] } =
      { queue := [], activeDownloads := 1, procs := [], trace := [] }) ∧
    (processNext 2 { queue := [{ id := 4, url := "u", title := "t", status := Status.pending,
                                 progress := 0, createdAt := 0 }],
                     activeDownloads := 0, procs := [], trace := [] } =
      startDownload { queue := [{ id := 4, url := "u", title := "t", status := Status.pending,
                                  progress := 0, createdAt := 0 }],
                      activeDownloads := 0, procs := [], trace := [] } 4) ∧
    ((addCreate 2 5 5 { url := "u", title := "t" } initState []).state.queue.map Item.id = [5]) ∧
    ((retryOp 2 { id := 0, url := "u", title := "t", status := Status.error } 9
        { queue := [{ id := 0, url := "u", title := "t", status := Status.error,
                      progress := 0, createdAt := 0 }],
          activeDownloads := 0, procs := [], trace := [] }).1.queue.map Item.id = [0]) :=
  ⟨c7_first_pending_in_insertion_order.1 1
     { queue := [], activeDownloads := 1, procs := [], trace := [] } (by decide),
   c7_first_pending_in_insertion_order.2.1 2
     { queue := [{ id := 4, url := "u", title := "t", status := Status.pending,
                   progress := 0, createdAt := 0 }],
       activeDownloads := 0, procs := [], trace := [] }
     { id := 4, url := "u", title := "t", status := Status.pending,
       progress := 0, createdAt := 0 } (by decide) (by decide),
   c7_first_pending_in_insertion_order.2.2.1 2 5 5 { url := "u", title := "t" } initState []
     (by intro it hit; simp [initState] at hit),
   c7_first_pending_in_insertion_order.2.2.2 2
     { id := 0, url := "u", title := "t", status := Status.error } 9
     { queue := [{ id := 0, url := "u", title := "t", status := Status.error,
                   progress := 0, createdAt := 0 }],
       activeDownloads := 0, procs := [], trace := [] }
     ⟨{ id := 0, url := "u", title := "t", status := Status.error,
        progress := 0, createdAt := 0 }, by decide, by decide⟩
     (Or.inl (by decide))⟩

end MusicDL

namespace MusicDL

theorem qGet_set_procs (s : QState) (ps : List (Nat × Bool)) (id : Nat) :
    qGet { s with procs := ps } id = qGet s id := rfl

theorem startDownload_trace_ext (s : QState) (j : Nat) :
    ∃ t, (startDownload s j).trace = s.trace ++ t := by
  unfold startDownload
  cases hq : qGet s j with
  | none => exact ⟨[], by simp⟩
  | some it =>
    refine ⟨[Ev.dbStatus j Status.downloading, Ev.statusChange j Status.downloading], ?_⟩
    simp [emit]

theorem processNext_trace_ext (limit : Nat) (s : QState) :
    ∃ t, (processNext limit s).trace = s.trace ++ t := by
  unfold processNext
  by_cases h : (limit : Int) ≤ s.activeDownloads
  · exact ⟨[], by simp [h]⟩
  · rw [if_neg h]
    cases hf : firstPending s.queue with
    | none => exact ⟨[], by simp⟩
    | some it => exact startDownload_trace_ext s it.id

/-- Amended C8: the persistence write precedes the corresponding emission on
the admission (`downloading`), completion, error and cancel-of-pending
paths.  On pause and resume, however, the listener emits a first
`statusChange` before the write completes (the write then precedes a second
`statusChange`), and on cancellation of an active job the `removed` event is
emitted before the `cancelled` write completes — only the listener's
`statusChange` follows the write. -/
theorem c8_write_event_ordering :
    (∀ s id it, qGet s id = some it →
      (startDownload s id).trace =
        s.trace ++ [Ev.dbStatus id Status.downloading, Ev.statusChange id Status.downloading]) ∧
    (∀ limit s id it, qGet s id = some it →
      ∃ t, (ytCloseSuccess limit s id).trace =
        s.trace ++ [Ev.dbStatus id Status.completed, Ev.complete id] ++ t) ∧
    (∀ limit s id it, qGet s id = some it →
      ∃ t, (ytStderr limit s id false).trace =
        s.trace ++ [Ev.dbStatus id Status.error, Ev.error id] ++ t) ∧
    (∀ s id it pr, qGet s id = some it → it.status = Status.downloading →
      procGet s id = some pr → pr.2 = false →
      (pauseOp s id).1.trace =
        s.trace ++ [Ev.statusChange id Status.paused, Ev.dbStatus id Status.paused,
                    Ev.statusChange id Status.paused]) ∧
    (∀ s id it pr, qGet s id = some it → it.status = Status.paused →
      procGet s id = some pr → pr.2 = true →
      (resumeOp s id).1.trace =
        s.trace ++ [Ev.statusChange id Status.downloading, Ev.dbStatus id Status.downloading,
                    Ev.statusChange id Status.downloading]) ∧
    (∀ limit s id it pr, qGet s id = some it →
      it.status = Status.downloading ∨ it.status = Status.paused →
      procGet s id = some pr →
      ∃ t1 t2, (cancelOp limit s id).1.trace =
        s.trace ++ Ev.removed id ::
          (t1 ++ Ev.dbStatus id Status.cancelled :: Ev.statusChange id Status.cancelled :: t2)) ∧
    (∀ limit s id it, qGet s id = some it → it.status = Status.pending →
      ∃ t, (cancelOp limit s id).1.trace =
        s.trace ++ [Ev.dbStatus id Status.cancelled, Ev.removed id] ++ t) := by
  refine ⟨?_, ?_, ?_, ?_, ?_, ?_, ?_⟩
  · intro s id it hq
    unfold startDownload
    rw [hq]
    simp [emit]
  · intro limit s id it hq
    unfold ytCloseSuccess handleComplete
    rw [qGet_set_procs, hq]
    obtain ⟨t, ht⟩ := processNext_trace_ext limit _
    refine ⟨t, ?_⟩
    rw [ht]
    simp [emit]
  · intro limit s id it hq
    show ∃ t, (handleError limit s id).trace = _
    unfold handleError
    rw [hq]
    obtain ⟨t, ht⟩ := processNext_trace_ext limit _
    refine ⟨t, ?_⟩
    rw [ht]
    simp [emit]
  · intro s id it pr hq hst hpr hpf
    simp [pauseOp, hq, hst, hpr, hpf, emit]
  · intro s id it pr hq hst hpr hpt
    simp [resumeOp, hq, hst, hpr, hpt, emit]
  · intro limit s id it pr hq hst hpr
    simp only [cancelOp, hq, hpr, if_pos hst, emit]
    obtain ⟨t2, ht2⟩ := processNext_trace_ext limit _
    obtain ⟨t1, ht1⟩ := processNext_trace_ext limit _
    refine ⟨t1, t2, ?_⟩
    rw [ht2]
    simp only [emit]
    rw [ht1]
    simp [emit, List.append_assoc]
  · intro limit s id it hq hst
    have hcond : ¬(it.status = Status.downloading ∨ it.status = Status.paused) := by
      simp [hst]
    simp only [cancelOp, hq, if_neg hcond, if_pos hst, emit]
    obtain ⟨t, ht⟩ := processNext_trace_ext limit _
    refine ⟨t, ?_⟩
    rw [ht]
    simp [emit]

end MusicDL

namespace MusicDL

/-- Witness for the amended C8 at concrete inputs: admission writes before
emitting, and pause emits its first `statusChange` before the write. -/
theorem c8_write_event_ordering_witness :
    (startDownload { queue := [{ id := 7, url := "u", title := "t", status := Status.pending,
                                 progress := 0, createdAt := 0 }],
                     activeDownloads := 0, procs := [], trace := [] } 7).trace =
      [Ev.dbStatus 7 Status.downloading, Ev.statusChange 7 Status.downloading] ∧
    (pauseOp { queue := [{ id := 7, url := "u", title := "t", status := Status.downloading,
                           progress := 0, createdAt := 0 }],
               activeDownloads := 1, procs := [(7, false)], trace := [] } 7).1.trace =
      [Ev.statusChange 7 Status.paused, Ev.dbStatus 7 Status.paused,
       Ev.statusChange 7 Status.paused] :=
  ⟨c8_write_event_ordering.1
     { queue := [{ id := 7, url := "u", title := "t", status := Status.pending,
                   progress := 0, createdAt := 0 }],
       activeDownloads := 0, procs := [], trace := [] } 7
     { id := 7, url := "u", title := "t", status := Status.pending,
       progress := 0, createdAt := 0 } (by decide),
   c8_write_event_ordering.2.2.2.1
     { queue := [{ id := 7, url := "u", title := "t", status := Status.downloading,
                   progress := 0, createdAt := 0 }],
       activeDownloads := 1, procs := [(7, false)], trace := [] } 7
     { id := 7, url := "u", title := "t", status := Status.downloading,
       progress := 0, createdAt := 0 } (7, false) (by decide) (by decide) (by decide) (by decide)⟩

theorem firstPending_facts {q : List Item} {it : Item} (h : firstPending q = some it) :
    it ∈ q ∧ it.status = Status.pending := by
  refine ⟨List.mem_of_find?_eq_some h, ?_⟩
  have h2 := List.find?_some h
  simpa using h2

theorem qGet_none_idAbsent {s : QState} {id : Nat} (h : qGet s id = none) :
    idAbsent s.queue id := by
  intro it hit
  have := List.find?_eq_none.mp h it hit
  simpa using this

theorem idAbsent_iff_map {q : List Item} {id : Nat} :
    idAbsent q id ↔ id ∉ q.map Item.id := by
  unfold idAbsent
  simp

theorem idAbsent_qUpdate {q : List Item} {id : Nat} (j : Nat) (f : Item → Item)
    (hf : ∀ it, (f it).id = it.id) (h : idAbsent q id) : idAbsent (qUpdate q j f) id := by
  intro it hit
  obtain ⟨a, ha, rfl⟩ := List.mem_map.mp (by simpa [qUpdate] using hit)
  by_cases hx : a.id = j
  · simpa [hx, hf] using h a ha
  · simpa [hx] using h a ha

theorem handleError_ids (limit : Nat) (s : QState) (j : Nat) :
    (handleError limit s j).queue.map Item.id = s.queue.map Item.id := by
  unfold handleError
  cases hq : qGet s j with
  | none => rw [processNext_ids]
  | some it =>
    rw [processNext_ids]
    simp only [emit]
    exact qUpdate_ids _ _ _ (fun _ => rfl)

theorem startDownload_events {s : QState} {j id : Nat} (hj : j ≠ id) {e : Ev}
    (he : e ∈ (startDownload s j).trace) (ht : tracedFor id e = true) : e ∈ s.trace := by
  unfold startDownload at he
  split at he
  · exact he
  · simp only [emit, List.mem_append, List.mem_singleton] at he
    rcases he with (he | rfl) | rfl
    · exact he
    · simp [tracedFor] at ht
    · simp [tracedFor] at ht
      exact absurd ht hj

theorem processNext_events {limit : Nat} {s : QState} {id : Nat}
    (h : idAbsent s.queue id) {e : Ev}
    (he : e ∈ (processNext limit s).trace) (ht : tracedFor id e = true) : e ∈ s.trace := by
  unfold processNext at he
  split at he
  · exact he
  · split at he
    · rename_i it hf
      obtain ⟨hmem, -⟩ := firstPending_facts hf
      exact startDownload_events (h it hmem) he ht
    · exact he

theorem handleError_events {limit : Nat} {s : QState} {j id : Nat}
    (h : idAbsent s.queue id) {e : Ev}
    (he : e ∈ (handleError limit s j).trace) (ht : tracedFor id e = true) : e ∈ s.trace := by
  unfold handleError at he
  cases hq : qGet s j with
  | none =>
    rw [hq] at he
    exact @processNext_events limit { s with activeDownloads := s.activeDownloads - 1 } id h e he ht
  | some it =>
    rw [hq] at he
    have he3 : e ∈ s.trace ∨ e = Ev.dbStatus j Status.error ∨ e = Ev.error j := by
      have he2 := @processNext_events limit
        { queue := qUpdate s.queue j (fun it => { it with status := Status.error }),
          activeDownloads := s.activeDownloads - 1, procs := s.procs,
          trace := (s.trace ++ [Ev.dbStatus j Status.error]) ++ [Ev.error j] } id
        (idAbsent_qUpdate j (fun it => { it with status := Status.error }) (fun _ => rfl) h)
        e he ht
      simpa [List.mem_append, List.mem_singleton, or_assoc] using he2
    rcases he3 with h1 | rfl | rfl
    · exact h1
    · simp [tracedFor] at ht
    · simp [tracedFor] at ht

theorem handleComplete_events {limit : Nat} {s : QState} {j id : Nat}
    (h : idAbsent s.queue id) {e : Ev}
    (he : e ∈ (handleComplete limit s j).trace) (ht : tracedFor id e = true) : e ∈ s.trace := by
  unfold handleComplete at he
  cases hq : qGet s j with
  | none =>
    rw [hq] at he
    exact @processNext_events limit { s with activeDownloads := s.activeDownloads - 1 } id h e he ht
  | some it =>
    rw [hq] at he
    have he3 : e ∈ s.trace ∨ e = Ev.dbStatus j Status.completed ∨ e = Ev.complete j := by
      have he2 := @processNext_events limit
        { queue := qUpdate s.queue j (fun it => { it with status := Status.completed, progress := 100 }),
          activeDownloads := s.activeDownloads - 1, procs := s.procs,
          trace := (s.trace ++ [Ev.dbStatus j Status.completed]) ++ [Ev.complete j] } id
        (idAbsent_qUpdate j (fun it => { it with status := Status.completed, progress := 100 })
          (fun _ => rfl) h)
        e he ht
      simpa [List.mem_append, List.mem_singleton, or_assoc] using he2
    rcases he3 with h1 | rfl | rfl
    · exact h1
    · simp [tracedFor] at ht
    · simp [tracedFor] at ht

theorem ytProgress_none {s : QState} {id : Nat} (p : Nat) (h : qGet s id = none) :
    ytProgress s id p = s := by
  unfold ytProgress
  cases hpr : procGet s id with
  | none => rfl
  | some pr => rw [h]

/-- Amended C6: once a job's item has been removed from the in-memory
registry, no worker-driven handler emits any further `progress` or
`statusChange` event for its id — a late progress emission for the id is a
no-op, and stderr or close handling (for any job, including the
`processNext` admissions they trigger) appends `progress`/`statusChange`
entries only for ids still present in the registry.  While a terminal item
remains in the registry, late worker output can still emit events for it
(see the counterexample). -/
theorem c6_no_events_after_removal (limit : Nat) (s : QState) (id : Nat)
    (h : qGet s id = none) :
    (∀ p, ytProgress s id p = s) ∧
    (∀ j w e, e ∈ (ytStderr limit s j w).trace → tracedFor id e = true → e ∈ s.trace) ∧
    (∀ j e, e ∈ (ytCloseSuccess limit s j).trace → tracedFor id e = true → e ∈ s.trace) ∧
    (∀ j e, e ∈ (ytCloseFailure limit s j).trace → tracedFor id e = true → e ∈ s.trace) := by
  have habs := qGet_none_idAbsent h
  refine ⟨fun p => ytProgress_none p h, ?_, ?_, ?_⟩
  · intro j w e he ht
    unfold ytStderr at he
    split at he
    · exact he
    · exact handleError_events habs he ht
  · intro j e he ht
    unfold ytCloseSuccess at he
    exact @handleComplete_events limit { s with procs := procDelete s.procs j } j id habs e he ht
  · intro j e he ht
    unfold ytCloseFailure at he
    have h1 : idAbsent (handleError limit { s with procs := procDelete s.procs j } j).queue id := by
      rw [idAbsent_iff_map, handleError_ids]
      exact idAbsent_iff_map.mp habs
    have he2 := @handleError_events limit
      (handleError limit { s with procs := procDelete s.procs j } j) j id h1 e he ht
    exact @handleError_events limit { s with procs := procDelete s.procs j } j id habs e he2 ht

/-- Witness for the amended C6: with job 0 removed from the registry (as
after `cancel`), a late 50% progress emission for id 0 changes nothing. -/
theorem c6_no_events_after_removal_witness :
    ytProgress { queue := [], activeDownloads := 0, procs := [(0, false)],
                 trace := [Ev.removed 0] } 0 50 =
      { queue := [], activeDownloads := 0, procs := [(0, false)],
        trace := [Ev.removed 0] } :=
  (c6_no_events_after_removal 2
    { queue := [], activeDownloads := 0, procs := [(0, false)], trace := [Ev.removed 0] }
    0 (by decide)).1 50

end MusicDL
